import Mathlib

/-!
Verification of the 3c-game-loader repository: a shallow embedding of the
loader pipeline (`loader.js` / `main.js`), the card-flip game module
(`games/card-flip.js`) and the in-memory storage utilities
(`admin/editor.js`, `StorageUtils`), with theorems settling the frozen
claims about the natural-language specification.

Conventions of the embedding:
* JavaScript values parsed from JSON are modelled by the inductive `Json`
  (numbers restricted to integers, which covers every number the
  repository's configs and the admin editor produce).
* The browser environment (query parameters, `fetch`, dynamic module
  resolution, image loading) is an explicit record `Env`; DOM side effects
  are modelled by a `Doc` record, and the observable actions of a run by a
  `List Event`.
* Platform primitives `JSON.stringify` / `JSON.parse` are modelled by a
  concrete codec (`stringifyJson` / `parseJson`) that mirrors JSON's
  grammar on the fragment the repository can produce (no floats; the
  common escape sequences).
-/

namespace GameLoader3C

/-- JavaScript values that come out of JSON parsing, with numbers
restricted to integers. -/
inductive Json where
  | null : Json
  | bool (b : Bool) : Json
  | num (n : Int) : Json
  | str (s : String) : Json
  | arr (xs : List Json) : Json
  | obj (kvs : List (String × Json)) : Json
deriving Repr

/-- JavaScript truthiness of a `Json` value (`!x` in the source negates
this): `null`, `false`, `0` and the empty string are falsy. -/
def jsTruthy : Json → Bool
  | .null => false
  | .bool b => b
  | .num n => n != 0
  | .str s => s != ""
  | .arr _ => true
  | .obj _ => true

/-- JavaScript truthiness of a possibly-`undefined` value (`none` plays
the role of `undefined`). -/
def jsTruthyOpt : Option Json → Bool
  | none => false
  | some v => jsTruthy v

/-- JavaScript property read `config[field]` on a parsed JSON value:
`undefined` (here `none`) unless the value is an object with the key. -/
def jGet : Json → String → Option Json
  | .obj kvs, k => kvs.lookup k
  | _, _ => none

/-- Decimal digit character for `d < 10`. -/
def digitChar (d : Nat) : Char := Char.ofNat (48 + d)

/-- The decimal digits of a natural number, most significant first
(the characters `String(n)` produces in JavaScript). -/
def natChars (n : Nat) : List Char :=
  if _h : n < 10 then [digitChar n]
  else natChars (n / 10) ++ [digitChar (n % 10)]
decreasing_by exact Nat.div_lt_self (by omega) (by omega)

/-- The characters of `String(i)` for an integer `i`. -/
def intChars (i : Int) : List Char :=
  if i < 0 then '-' :: natChars (-i).toNat else natChars i.toNat

/-- `String(i)` for an integer, as in JavaScript template interpolation
and attribute coercion. -/
def intStr (i : Int) : String := ⟨intChars i⟩

/-! ## A JSON codec modelling the platform's JSON.stringify / JSON.parse

`StorageUtils` (admin/editor.js) delegates serialization to the browser's
`JSON.stringify` and `JSON.parse`; the model below is a concrete codec for
the `Json` fragment above: no whitespace is emitted, strings escape the
quote, the backslash and the common control characters. -/

/-- JSON escape of one character of string content. -/
def escJsonChar (c : Char) : List Char :=
  if c = '"' then ['\\', '"']
  else if c = '\\' then ['\\', '\\']
  else if c = '\n' then ['\\', 'n']
  else if c = '\t' then ['\\', 't']
  else if c = '\r' then ['\\', 'r']
  else [c]

/-- JSON escape of string contents. -/
def escJson : List Char → List Char
  | [] => []
  | c :: t => escJsonChar c ++ escJson t

/-- The characters of a JSON string literal for `s`. -/
def strLitChars (s : String) : List Char := '"' :: (escJson s.data ++ ['"'])

mutual

/-- The characters `JSON.stringify` produces for a `Json` value. -/
def jsonChars : Json → List Char
  | .null => "null".data
  | .bool true => "true".data
  | .bool false => "false".data
  | .num i => intChars i
  | .str s => strLitChars s
  | .arr xs => '[' :: (elemsChars xs ++ [']'])
  | .obj kvs => '\x7b' :: (membersChars kvs ++ ['\x7d'])

/-- The characters of a comma-separated list of array elements. -/
def elemsChars : List Json → List Char
  | [] => []
  | v :: vs => jsonChars v ++ (if vs.isEmpty then [] else [',']) ++ elemsChars vs

/-- The characters of a comma-separated list of object members. -/
def membersChars : List (String × Json) → List Char
  | [] => []
  | (k, v) :: kvs =>
      strLitChars k ++ ':' :: (jsonChars v ++ (if kvs.isEmpty then [] else [',']) ++ membersChars kvs)

end

/-- `JSON.stringify` on the modelled fragment. -/
def stringifyJson (v : Json) : String := ⟨jsonChars v⟩

/-- Whether a character list starts with a decimal digit. -/
def digitStart : List Char → Bool
  | [] => false
  | c :: _ => c.isDigit

/-- The numeric value of a digit character. -/
def charDigit (c : Char) : Nat := c.toNat - 48

/-- Consume a maximal run of digits, accumulating their value. -/
def parseDigits : List Char → Nat → Nat × List Char
  | [], acc => (acc, [])
  | c :: t, acc => if c.isDigit then parseDigits t (acc * 10 + charDigit c) else (acc, c :: t)

/-- Decode one JSON string-escape character. -/
def unescJsonChar (c : Char) : Option Char :=
  if c = '"' then some '"'
  else if c = '\\' then some '\\'
  else if c = '/' then some '/'
  else if c = 'n' then some '\n'
  else if c = 't' then some '\t'
  else if c = 'r' then some '\r'
  else none

/-- Parse the body of a JSON string literal (after the opening quote), up to
and including the closing quote. -/
def parseStringBody : List Char → Option (List Char × List Char)
  | [] => none
  | c :: rest =>
    if c = '"' then some ([], rest)
    else if c = '\\' then
      match rest with
      | [] => none
      | e :: rest2 =>
        match unescJsonChar e with
        | none => none
        | some u => (parseStringBody rest2).map (fun p => (u :: p.1, p.2))
    else (parseStringBody rest).map (fun p => (c :: p.1, p.2))

/-- Whether a character list starts with the given character. -/
def headIs : List Char → Char → Bool
  | [], _ => false
  | c :: _, d => c = d

mutual

/-- Fuel-indexed recursive-descent parser for one JSON value. -/
def parseJsonValue : Nat → List Char → Option (Json × List Char)
  | 0, _ => none
  | _ + 1, [] => none
  | fuel + 1, c :: input =>
    if c = '-' then
      if digitStart input then
        let p := parseDigits input 0
        some (.num (-(p.1 : Int)), p.2)
      else none
    else if c.isDigit then
      let p := parseDigits (c :: input) 0
      some (.num (p.1 : Int), p.2)
    else if c = '"' then
      (parseStringBody input).map (fun p => (.str ⟨p.1⟩, p.2))
    else if c = '[' then
      if headIs input ']' then some (.arr [], input.tail)
      else (parseJsonElems fuel input).map (fun p => (.arr p.1, p.2))
    else if c = '\x7b' then
      if headIs input '\x7d' then some (.obj [], input.tail)
      else (parseJsonMembers fuel input).map (fun p => (.obj p.1, p.2))
    else
      match c, input with
      | 'n', 'u' :: 'l' :: 'l' :: rest => some (.null, rest)
      | 't', 'r' :: 'u' :: 'e' :: rest => some (.bool true, rest)
      | 'f', 'a' :: 'l' :: 's' :: 'e' :: rest => some (.bool false, rest)
      | _, _ => none

/-- Parse a nonempty array tail `v1,…,vn]…`. -/
def parseJsonElems : Nat → List Char → Option (List Json × List Char)
  | 0, _ => none
  | fuel + 1, input =>
    match parseJsonValue fuel input with
    | none => none
    | some (v, rest) =>
      match rest with
      | ',' :: rest2 =>
        match parseJsonElems fuel rest2 with
        | none => none
        | some (vs, rest3) => some (v :: vs, rest3)
      | ']' :: rest2 => some ([v], rest2)
      | _ => none

/-- Parse a nonempty object tail `"k1":v1,…\x7d…`. -/
def parseJsonMembers : Nat → List Char → Option (List (String × Json) × List Char)
  | 0, _ => none
  | fuel + 1, input =>
    match input with
    | '"' :: krest =>
      match parseStringBody krest with
      | none => none
      | some (kcs, rest) =>
        match rest with
        | ':' :: vrest =>
          match parseJsonValue fuel vrest with
          | none => none
          | some (v, rest2) =>
            match rest2 with
            | ',' :: rest3 =>
              match parseJsonMembers fuel rest3 with
              | none => none
              | some (kvs, rest4) => some ((⟨kcs⟩, v) :: kvs, rest4)
            | '\x7d' :: rest3 => some ([(⟨kcs⟩, v)], rest3)
            | _ => none
        | _ => none
    | _ => none

end

/-- `JSON.parse` on the modelled fragment: the whole input must be consumed. -/
def parseJson (s : String) : Option Json :=
  match parseJsonValue (s.data.length + 1) s.data with
  | some (v, []) => some v
  | _ => none

mutual

/-- Node count of a `Json` value, the fuel measure of the parser. -/
def jsize : Json → Nat
  | .null => 1
  | .bool _ => 1
  | .num _ => 1
  | .str _ => 1
  | .arr xs => jsizeElems xs + 1
  | .obj kvs => jsizeMembers kvs + 1

/-- Fuel measure of an element list (one unit of slack per element). -/
def jsizeElems : List Json → Nat
  | [] => 0
  | v :: vs => jsize v + jsizeElems vs + 1

/-- Fuel measure of a member list. -/
def jsizeMembers : List (String × Json) → Nat
  | [] => 0
  | (_, v) :: kvs => jsize v + jsizeMembers kvs + 1

end

/-! ## Roundtrip of the JSON codec -/

theorem digitChar_isDigit (d : Nat) (hd : d < 10) : (digitChar d).isDigit = true := by
  interval_cases d <;> decide

theorem charDigit_digitChar (d : Nat) (hd : d < 10) : charDigit (digitChar d) = d := by
  interval_cases d <;> decide

theorem natChars_head (n : Nat) : ∃ d ds, natChars n = d :: ds ∧ d.isDigit = true := by
  induction n using Nat.strong_induction_on with
  | _ n ih =>
    by_cases h : n < 10
    · exact ⟨digitChar n, [], by rw [natChars]; simp [h], digitChar_isDigit n h⟩
    · obtain ⟨d, ds, hds, hdig⟩ := ih (n / 10) (Nat.div_lt_self (by omega) (by omega))
      exact ⟨d, ds ++ [digitChar (n % 10)], by rw [natChars]; simp [h, hds], hdig⟩

/-- Accumulator evolution while `parseDigits` consumes the digits of `n`. -/
def shiftAcc (acc : Nat) (n : Nat) : Nat :=
  if _h : n < 10 then acc * 10 + n
  else shiftAcc acc (n / 10) * 10 + n % 10
decreasing_by exact Nat.div_lt_self (by omega) (by omega)

theorem shiftAcc_zero (n : Nat) : shiftAcc 0 n = n := by
  induction n using Nat.strong_induction_on with
  | _ n ih =>
    by_cases h : n < 10
    · rw [shiftAcc]; simp [h]
    · rw [shiftAcc]; simp only [h, dite_false]
      rw [ih (n / 10) (Nat.div_lt_self (by omega) (by omega))]
      omega

theorem parseDigits_natChars (n : Nat) :
    ∀ acc rest, parseDigits (natChars n ++ rest) acc = parseDigits rest (shiftAcc acc n) := by
  induction n using Nat.strong_induction_on with
  | _ n ih =>
    intro acc rest
    by_cases h : n < 10
    · rw [natChars, shiftAcc]
      simp only [h, dite_true, List.cons_append, List.nil_append]
      rw [parseDigits]
      simp [digitChar_isDigit n h, charDigit_digitChar n h]
    · rw [natChars, shiftAcc]
      simp only [h, dite_false, List.append_assoc, List.cons_append, List.nil_append]
      rw [ih (n / 10) (Nat.div_lt_self (by omega) (by omega))]
      rw [parseDigits]
      simp [digitChar_isDigit (n % 10) (by omega), charDigit_digitChar (n % 10) (by omega)]

theorem parseDigits_stop (rest : List Char) (acc : Nat) (h : digitStart rest = false) :
    parseDigits rest acc = (acc, rest) := by
  cases rest with
  | nil => rfl
  | cons c t =>
    rw [parseDigits]
    simp only [digitStart] at h
    simp [h]

theorem parseDigits_natChars_stop (n : Nat) (rest : List Char) (h : digitStart rest = false) :
    parseDigits (natChars n ++ rest) 0 = (n, rest) := by
  rw [parseDigits_natChars, shiftAcc_zero, parseDigits_stop rest n h]

theorem parseStringBody_escJson (l : List Char) :
    ∀ rest, parseStringBody (escJson l ++ '"' :: rest) = some (l, rest) := by
  induction l with
  | nil =>
    intro rest
    rw [escJson, List.nil_append, parseStringBody.eq_def]
    simp
  | cons c t ih =>
    intro rest
    rw [escJson]
    by_cases h1 : c = '"'
    · subst h1
      simp only [escJsonChar, List.cons_append, List.append_assoc, reduceIte]
      rw [parseStringBody.eq_def]
      simp [unescJsonChar, ih]
    · by_cases h2 : c = '\\'
      · subst h2
        simp only [escJsonChar, List.cons_append, List.append_assoc, reduceIte]
        rw [parseStringBody.eq_def]
        simp [unescJsonChar, ih]
      · by_cases h3 : c = '\n'
        · subst h3
          simp only [escJsonChar, List.cons_append, List.append_assoc, reduceIte]
          rw [parseStringBody.eq_def]
          simp [unescJsonChar, ih]
        · by_cases h4 : c = '\t'
          · subst h4
            simp only [escJsonChar, List.cons_append, List.append_assoc, reduceIte]
            rw [parseStringBody.eq_def]
            simp [unescJsonChar, ih]
          · by_cases h5 : c = '\r'
            · subst h5
              simp only [escJsonChar, List.cons_append, List.append_assoc, reduceIte]
              rw [parseStringBody.eq_def]
              simp [unescJsonChar, ih]
            · simp only [escJsonChar, h1, h2, h3, h4, h5, if_false, ite_false,
                List.cons_append, List.nil_append]
              rw [parseStringBody.eq_def]
              simp [h1, h2, ih]

theorem jsize_pos (v : Json) : 1 ≤ jsize v := by
  cases v <;> simp [jsize]

theorem jsonChars_null : jsonChars .null = ['n', 'u', 'l', 'l'] := by
  rw [jsonChars.eq_def]

theorem jsonChars_bool (b : Bool) :
    jsonChars (.bool b) = if b then ['t', 'r', 'u', 'e'] else ['f', 'a', 'l', 's', 'e'] := by
  cases b <;> simp [jsonChars.eq_def]

theorem jsonChars_num (i : Int) : jsonChars (.num i) = intChars i := by
  rw [jsonChars.eq_def]

theorem jsonChars_str (s : String) : jsonChars (.str s) = strLitChars s := by
  rw [jsonChars.eq_def]

theorem jsonChars_arr (xs : List Json) :
    jsonChars (.arr xs) = '[' :: (elemsChars xs ++ [']']) := by
  rw [jsonChars.eq_def]

theorem jsonChars_obj (kvs : List (String × Json)) :
    jsonChars (.obj kvs) = '\x7b' :: (membersChars kvs ++ ['\x7d']) := by
  rw [jsonChars.eq_def]

theorem elemsChars_nil : elemsChars [] = [] := by
  rw [elemsChars.eq_def]

theorem elemsChars_cons (v : Json) (vs : List Json) :
    elemsChars (v :: vs) = jsonChars v ++ (if vs.isEmpty then [] else [',']) ++ elemsChars vs := by
  rw [elemsChars.eq_def]

theorem membersChars_nil : membersChars [] = [] := by
  rw [membersChars.eq_def]

theorem membersChars_cons (k : String) (v : Json) (kvs : List (String × Json)) :
    membersChars ((k, v) :: kvs) =
      strLitChars k ++ ':' :: (jsonChars v ++ (if kvs.isEmpty then [] else [','])
        ++ membersChars kvs) := by
  rw [membersChars.eq_def]

theorem intChars_ne_nil (i : Int) : intChars i ≠ [] := by
  rw [intChars]
  by_cases hi : i < 0
  · simp [hi]
  · simp only [hi, if_false]
    obtain ⟨d, ds, hds, _⟩ := natChars_head i.toNat
    simp [hds]

mutual

theorem jsize_le_length (v : Json) : jsize v ≤ (jsonChars v).length := by
  cases v with
  | null => simp [jsize, jsonChars_null]
  | bool b => cases b <;> simp [jsize, jsonChars_bool]
  | num i =>
    rw [jsize, jsonChars_num]
    have h := intChars_ne_nil i
    cases hc : intChars i with
    | nil => exact absurd hc h
    | cons c t => simp
  | str s =>
    rw [jsize, jsonChars_str, strLitChars]
    simp
  | arr xs =>
    rw [jsize, jsonChars_arr]
    have h := jsizeElems_le_length xs
    simp only [List.length_cons, List.length_append, List.length_singleton]
    omega
  | obj kvs =>
    rw [jsize, jsonChars_obj]
    have h := jsizeMembers_le_length kvs
    simp only [List.length_cons, List.length_append, List.length_singleton]
    omega

theorem jsizeElems_le_length (xs : List Json) :
    jsizeElems xs ≤ (elemsChars xs).length + 1 := by
  cases xs with
  | nil => simp [jsizeElems, elemsChars_nil]
  | cons v vs =>
    rw [jsizeElems, elemsChars_cons]
    have h1 := jsize_le_length v
    have h2 := jsizeElems_le_length vs
    cases vs with
    | nil =>
      simp only [List.isEmpty_nil, if_true, List.append_nil, List.length_append]
      simp [jsizeElems, elemsChars_nil] at h2 ⊢
      omega
    | cons v2 vs2 =>
      simp only [List.isEmpty_cons, Bool.false_eq_true, if_false, List.length_append,
        List.length_singleton]
      omega

theorem jsizeMembers_le_length (kvs : List (String × Json)) :
    jsizeMembers kvs ≤ (membersChars kvs).length + 1 := by
  cases kvs with
  | nil => simp [jsizeMembers, membersChars_nil]
  | cons kv kvs' =>
    obtain ⟨k, v⟩ := kv
    rw [jsizeMembers, membersChars_cons]
    have h1 := jsize_le_length v
    have h2 := jsizeMembers_le_length kvs'
    cases kvs' with
    | nil =>
      simp only [List.isEmpty_nil, if_true, List.append_nil, List.length_append,
        List.length_cons]
      simp [jsizeMembers, membersChars_nil] at h2 ⊢
      omega
    | cons kv2 kvs2 =>
      simp only [List.isEmpty_cons, Bool.false_eq_true, if_false, List.length_append,
        List.length_cons, List.length_singleton]
      omega

end

theorem jsonChars_head (v : Json) :
    ∃ c t, jsonChars v = c :: t ∧ c ≠ ']' := by
  cases v with
  | null => exact ⟨'n', _, jsonChars_null, by decide⟩
  | bool b =>
    cases b
    · exact ⟨'f', _, by rw [jsonChars_bool]; rfl, by decide⟩
    · exact ⟨'t', _, by rw [jsonChars_bool]; rfl, by decide⟩
  | num i =>
    by_cases hi : i < 0
    · exact ⟨'-', natChars (-i).toNat, by rw [jsonChars_num, intChars]; simp [hi], by decide⟩
    · obtain ⟨d, ds, hds, hdig⟩ := natChars_head i.toNat
      refine ⟨d, ds, by rw [jsonChars_num, intChars]; simp [hi, hds], ?_⟩
      intro h; subst h; simp at hdig
  | str s => exact ⟨'"', _, jsonChars_str s, by decide⟩
  | arr xs => exact ⟨'[', _, jsonChars_arr xs, by decide⟩
  | obj kvs => exact ⟨'\x7b', _, jsonChars_obj kvs, by decide⟩


theorem parseJsonElems_succ (fuel : Nat) (input : List Char) :
    parseJsonElems (fuel + 1) input =
      match parseJsonValue fuel input with
      | none => none
      | some (v, rest) =>
        match rest with
        | ',' :: rest2 =>
          match parseJsonElems fuel rest2 with
          | none => none
          | some (vs, rest3) => some (v :: vs, rest3)
        | ']' :: rest2 => some ([v], rest2)
        | _ => none := by
  rw [parseJsonElems.eq_def]

theorem parseJsonMembers_succ (fuel : Nat) (input : List Char) :
    parseJsonMembers (fuel + 1) input =
      match input with
      | '"' :: krest =>
        match parseStringBody krest with
        | none => none
        | some (kcs, rest) =>
          match rest with
          | ':' :: vrest =>
            match parseJsonValue fuel vrest with
            | none => none
            | some (v, rest2) =>
              match rest2 with
              | ',' :: rest3 =>
                match parseJsonMembers fuel rest3 with
                | none => none
                | some (kvs, rest4) => some ((⟨kcs⟩, v) :: kvs, rest4)
              | '\x7d' :: rest3 => some ([(⟨kcs⟩, v)], rest3)
              | _ => none
          | _ => none
      | _ => none := by
  rw [parseJsonMembers.eq_def]

theorem roundAux : ∀ f : Nat,
    (∀ v rest, jsize v ≤ f → digitStart rest = false →
      parseJsonValue f (jsonChars v ++ rest) = some (v, rest)) ∧
    (∀ xs rest, xs ≠ [] → jsizeElems xs ≤ f →
      parseJsonElems f (elemsChars xs ++ ']' :: rest) = some (xs, rest)) ∧
    (∀ kvs rest, kvs ≠ [] → jsizeMembers kvs ≤ f →
      parseJsonMembers f (membersChars kvs ++ '\x7d' :: rest) = some (kvs, rest)) := by
  intro f
  induction f with
  | zero =>
    refine ⟨?_, ?_, ?_⟩
    · intro v rest hsz _
      have := jsize_pos v
      omega
    · intro xs rest hne hsz
      cases xs with
      | nil => exact absurd rfl hne
      | cons v vs =>
        rw [jsizeElems] at hsz
        have := jsize_pos v
        omega
    · intro kvs rest hne hsz
      cases kvs with
      | nil => exact absurd rfl hne
      | cons kv kvs' =>
        obtain ⟨k, v⟩ := kv
        rw [jsizeMembers] at hsz
        have := jsize_pos v
        omega
  | succ f ih =>
    obtain ⟨ihP, ihE, ihM⟩ := ih
    refine ⟨?_, ?_, ?_⟩
    · intro v rest hsz hdig
      cases v with
      | null =>
        rw [jsonChars_null, parseJsonValue.eq_def]
        simp
      | bool b =>
        cases b
        · rw [show jsonChars (Json.bool false) = ['f', 'a', 'l', 's', 'e'] from by
            simp [jsonChars_bool]]
          rw [parseJsonValue.eq_def]
          simp
        · rw [show jsonChars (Json.bool true) = ['t', 'r', 'u', 'e'] from by
            simp [jsonChars_bool]]
          rw [parseJsonValue.eq_def]
          simp
      | num i =>
        by_cases hi : i < 0
        · rw [jsonChars_num, intChars]
          simp only [hi, if_true]
          rw [List.cons_append, parseJsonValue.eq_def]
          obtain ⟨d, ds, hds, hd⟩ := natChars_head (-i).toNat
          have hstart : digitStart (natChars (-i).toNat ++ rest) = true := by
            rw [hds]; simp [digitStart, hd]
          simp only [if_pos rfl, hstart, if_true]
          rw [parseDigits_natChars_stop (-i).toNat rest hdig]
          simp
          omega
        · rw [jsonChars_num, intChars]
          simp only [hi, if_false]
          obtain ⟨d, ds, hds, hd⟩ := natChars_head i.toNat
          rw [hds, List.cons_append, parseJsonValue.eq_def]
          have hdne : ¬ d = '-' := by
            intro h; subst h; simp at hd
          simp only [hdne, if_false, hd, if_true]
          rw [← List.cons_append, ← hds]
          rw [parseDigits_natChars_stop i.toNat rest hdig]
          simp [Int.toNat_of_nonneg (by omega : (0:Int) ≤ i)]
      | str s =>
        obtain ⟨l⟩ := s
        rw [jsonChars_str, strLitChars]
        rw [List.cons_append, parseJsonValue.eq_def]
        simp only [List.append_assoc, List.singleton_append]
        simp [parseStringBody_escJson]
      | arr xs =>
        cases xs with
        | nil =>
          rw [jsonChars_arr, elemsChars_nil]
          simp only [List.nil_append, List.cons_append]
          rw [parseJsonValue.eq_def]
          simp [headIs]
        | cons v vs =>
          rw [jsonChars_arr, List.cons_append, parseJsonValue.eq_def]
          obtain ⟨c, t, hct, hcne⟩ := jsonChars_head v
          have hassoc : (elemsChars (v :: vs) ++ [']']) ++ rest
              = elemsChars (v :: vs) ++ ']' :: rest := by simp
          have hIs : headIs (elemsChars (v :: vs) ++ ']' :: rest) ']' = false := by
            rw [elemsChars_cons, hct]
            simp [headIs, hcne]
          rw [jsize] at hsz
          rw [hassoc]
          simp only [hIs, if_false]
          rw [ihE (v :: vs) rest (by simp) (by omega)]
          simp
      | obj kvs =>
        cases kvs with
        | nil =>
          rw [jsonChars_obj, membersChars_nil]
          simp only [List.nil_append, List.cons_append]
          rw [parseJsonValue.eq_def]
          simp [headIs]
        | cons kv kvs' =>
          obtain ⟨k, v⟩ := kv
          rw [jsonChars_obj, List.cons_append, parseJsonValue.eq_def]
          have hassoc : (membersChars ((k, v) :: kvs') ++ ['\x7d']) ++ rest
              = membersChars ((k, v) :: kvs') ++ '\x7d' :: rest := by simp
          have hIs : headIs (membersChars ((k, v) :: kvs') ++ '\x7d' :: rest) '\x7d'
              = false := by
            rw [membersChars_cons, strLitChars]
            simp [headIs]
          rw [jsize] at hsz
          rw [hassoc]
          simp only [hIs, if_false]
          rw [ihM ((k, v) :: kvs') rest (by simp) (by omega)]
          simp
    · intro xs rest hne hsz
      cases xs with
      | nil => exact absurd rfl hne
      | cons v vs =>
        rw [jsizeElems] at hsz
        have hvpos := jsize_pos v
        rw [elemsChars_cons]
        cases vs with
        | nil =>
          simp only [List.isEmpty_nil, if_true, elemsChars_nil, List.append_nil]
          rw [parseJsonElems_succ]
          rw [ihP v (']' :: rest) (by rw [jsizeElems] at hsz; omega) rfl]
          rfl
        | cons v2 vs2 =>
          simp only [List.isEmpty_cons, Bool.false_eq_true, if_false, List.append_assoc,
            List.singleton_append, List.cons_append, List.nil_append]
          rw [parseJsonElems_succ]
          rw [ihP v (',' :: (elemsChars (v2 :: vs2) ++ ']' :: rest)) (by omega) rfl]
          simp [ihE (v2 :: vs2) rest (by simp) (by omega)]
    · intro kvs rest hne hsz
      cases kvs with
      | nil => exact absurd rfl hne
      | cons kv kvs' =>
        obtain ⟨k, v⟩ := kv
        rw [jsizeMembers] at hsz
        have hvpos := jsize_pos v
        rw [membersChars_cons, strLitChars]
        obtain ⟨kl⟩ := k
        cases kvs' with
        | nil =>
          simp only [List.isEmpty_nil, if_true, membersChars_nil, List.append_nil,
            List.cons_append, List.append_assoc, List.singleton_append, List.nil_append]
          rw [parseJsonMembers_succ]
          simp only [parseStringBody_escJson]
          simp [ihP v ('\x7d' :: rest) (by omega) rfl]
        | cons kv2 kvs2 =>
          simp only [List.isEmpty_cons, Bool.false_eq_true, if_false, List.cons_append,
            List.append_assoc, List.singleton_append, List.nil_append]
          rw [parseJsonMembers_succ]
          simp only [parseStringBody_escJson]
          simp [ihP v (',' :: (membersChars (kv2 :: kvs2) ++ '\x7d' :: rest)) (by omega) rfl,
            ihM (kv2 :: kvs2) rest (by simp) (by omega)]

/-- The codec inverts: parsing a stringified value recovers it exactly. -/
theorem parseJson_stringifyJson (v : Json) : parseJson (stringifyJson v) = some v := by
  have h := (roundAux ((jsonChars v).length + 1)).1 v []
    (Nat.le_succ_of_le (jsize_le_length v)) rfl
  rw [List.append_nil] at h
  show (match parseJsonValue ((jsonChars v).length + 1) (jsonChars v) with
    | some (w, []) => some w
    | _ => none) = some v
  rw [h]

theorem stringifyJson_ne_empty (v : Json) : stringifyJson v ≠ "" := by
  intro h
  obtain ⟨c, t, hct, _⟩ := jsonChars_head v
  have h2 : jsonChars v = ([] : List Char) := by
    have := congrArg String.data h
    simpa [stringifyJson] using this
  rw [hct] at h2
  simp at h2

/-! ## StorageUtils (admin/editor.js)

`StorageUtils` keeps an in-memory `Map` from string keys to serialized
strings; the map is modelled as an association list with unique keys. -/

/-- `Map.set`: replace the binding for `k` or append a fresh one. -/
def mapSet : List (String × String) → String → String → List (String × String)
  | [], k, val => [(k, val)]
  | (k2, v2) :: t, k, val =>
      if k2 = k then (k, val) :: t else (k2, v2) :: mapSet t k val

/-- `StorageUtils.setItem(key, value)`:
`this._storage.set(key, JSON.stringify(value))`. -/
def setItem (storage : List (String × String)) (key : String) (value : Json) :
    List (String × String) :=
  mapSet storage key (stringifyJson value)

/-- `StorageUtils.getItem(key, defaultValue)`:
`const value = this._storage.get(key); return value ? JSON.parse(value) :
defaultValue;`, with the surrounding catch returning the default when
parsing throws. An absent key gives `undefined` (falsy); an empty stored
string is also falsy. -/
def getItem (storage : List (String × String)) (key : String) (defaultValue : Json) : Json :=
  match storage.lookup key with
  | none => defaultValue
  | some s =>
      if s = "" then defaultValue
      else
        match parseJson s with
        | some v => v
        | none => defaultValue

/-- `StorageUtils.removeItem(key)`: `this._storage.delete(key)`. -/
def removeItem (storage : List (String × String)) (key : String) :
    List (String × String) :=
  storage.filter (fun p => p.1 != key)

theorem lookup_mapSet (st : List (String × String)) (k val : String) :
    (mapSet st k val).lookup k = some val := by
  induction st with
  | nil => simp [mapSet]
  | cons p t ih =>
    obtain ⟨k2, v2⟩ := p
    by_cases h : k2 = k
    · subst h
      simp [mapSet]
    · rw [mapSet]
      simp only [h, if_false]
      rw [List.lookup]
      have hk : (k == k2) = false := by simp [Ne.symm h]
      simp [hk, ih]

theorem lookup_removeItem (st : List (String × String)) (k : String) :
    (removeItem st k).lookup k = none := by
  induction st with
  | nil => rfl
  | cons p t ih =>
    obtain ⟨k2, v2⟩ := p
    rw [removeItem, List.filter]
    by_cases h : k2 = k
    · subst h
      simp only [bne_self_eq_false]
      exact ih
    · have hb : (k2 != k) = true := by simp [h]
      rw [hb]
      rw [List.lookup]
      have hk : (k == k2) = false := by simp [Ne.symm h]
      simp only [hk, cond_false]
      exact ih

/-- C10: for every key and every JSON-serializable value `v`,
`StorageUtils.getItem(key)` after `StorageUtils.setItem(key, v)` returns a
value structurally equal to `v`; `getItem` of a key that was never set
(empty storage) or was removed returns the supplied default value. -/
theorem C10_storage_get_set_roundtrip :
    (∀ (storage : List (String × String)) (key : String) (v defaultValue : Json),
       getItem (setItem storage key v) key defaultValue = v) ∧
    (∀ (key : String) (defaultValue : Json),
       getItem [] key defaultValue = defaultValue) ∧
    (∀ (storage : List (String × String)) (key : String) (defaultValue : Json),
       getItem (removeItem storage key) key defaultValue = defaultValue) := by
  refine ⟨?_, ?_, ?_⟩
  · intro st k v d
    rw [getItem, setItem, lookup_mapSet]
    simp [stringifyJson_ne_empty v, parseJson_stringifyJson v]
  · intro k d
    rfl
  · intro st k d
    rw [getItem, lookup_removeItem]

/-! ## The card-flip game module (games/card-flip.js)

DOM elements are modelled as a tree: tag, className, attributes, inline
styles, a `content` payload (textContent or an innerHTML string) and the
list of children.  Click handlers have no effect on the rendered tree and
are not modelled. -/

/-- A DOM element. -/
inductive Elem where
  | mk (tag className : String) (attrs styles : List (String × String))
      (content : String) (children : List Elem)

def Elem.tag : Elem → String
  | .mk t _ _ _ _ _ => t

def Elem.className : Elem → String
  | .mk _ c _ _ _ _ => c

def Elem.attrs : Elem → List (String × String)
  | .mk _ _ a _ _ _ => a

def Elem.styles : Elem → List (String × String)
  | .mk _ _ _ s _ _ => s

def Elem.content : Elem → String
  | .mk _ _ _ _ c _ => c

def Elem.children : Elem → List Elem
  | .mk _ _ _ _ _ ch => ch

/-- One character-class replacement, the effect of
`String.replace(/c/g, rep)` for a single-character pattern. -/
def replaceChar (c : Char) (rep : List Char) : List Char → List Char
  | [] => []
  | d :: t => (if d = c then rep else [d]) ++ replaceChar c rep t

/-- `escapeHtml` from games/card-flip.js:
`String(s).replace(/&/g, amp).replace(/"/g, quot).replace(/</g, lt)
.replace(/>/g, gt)` with the respective HTML entities. -/
def escapeHtml (s : String) : String :=
  ⟨replaceChar '>' "&gt;".data
    (replaceChar '<' "&lt;".data
      (replaceChar '"' "&quot;".data
        (replaceChar '&' "&amp;".data s.data)))⟩

/-- A card entry of a configuration (`config.cards[i]`). -/
structure CardSpec where
  id : Int
  frontImage : String
  message : String

/-- The configuration fields the card-flip module reads (section 3's
`GameConfig`, restricted to the fields `startGame` uses; the
`settings` timing values only affect click handlers, which are not
modelled). -/
structure GameConfig where
  gameType : String
  theme : Option String
  title : Option String
  cards : List CardSpec

/-- JavaScript `v || d` on an optional string (empty string is falsy). -/
def jsOrDefaultStr (v : Option String) (d : String) : String :=
  match v with
  | some s => if s = "" then d else s
  | none => d

/-- The back face `div.card-face.card-back`. -/
def backFace : Elem := .mk "div" "card-face card-back" [] [] "" []

/-- The front face `div.card-face.card-front`, whose innerHTML wraps the
escaped message in a `card-text` div. -/
def frontFace (cardData : CardSpec) : Elem :=
  .mk "div" "card-face card-front" [] []
    ("<div class=\"card-text\">" ++ escapeHtml cardData.message ++ "</div>") []

/-- The `div.card-inner` holding back and front faces, in that order. -/
def cardInner (cardData : CardSpec) : Elem :=
  .mk "div" "card-inner" [] [] "" [backFace, frontFace cardData]

/-- One rendered card: `div.card` with the `data-id` attribute set from
`cardData.id` (coerced to a string by `setAttribute`). -/
def mkCardElem (cardData : CardSpec) : Elem :=
  .mk "div" "card" [("data-id", intStr cardData.id)] [] "" [cardInner cardData]

/-- The `h2` title: `config.title || 'Card Flip'`, centered. -/
def titleElem (config : GameConfig) : Elem :=
  .mk "h2" "" [] [("textAlign", "center")] (jsOrDefaultStr config.title "Card Flip") []

/-- The `div.cards-wrapper` with one card element per entry of
`config.cards`, in input order (`config.cards.forEach`). -/
def cardsWrapper (config : GameConfig) : Elem :=
  .mk "div" "cards-wrapper" [] [] "" (config.cards.map mkCardElem)

/-- `startGame(config, container)` of games/card-flip.js: appends the
title and the cards wrapper to the container. -/
def startGame (config : GameConfig) (container : Elem) : Elem :=
  .mk container.tag container.className container.attrs container.styles container.content
    (container.children ++ [titleElem config, cardsWrapper config])

/-- The innerHTML of the front face of a rendered card element. -/
def cardFrontHtml (card : Elem) : Option String :=
  match card.children with
  | [inner] =>
    match inner.children with
    | [_, front] => some front.content
    | _ => none
  | _ => none

/-- The character-wise entity map the chain of replacements amounts to. -/
def htmlEntity (c : Char) : List Char :=
  if c = '&' then "&amp;".data
  else if c = '"' then "&quot;".data
  else if c = '<' then "&lt;".data
  else if c = '>' then "&gt;".data
  else [c]

theorem replaceChar_append (c : Char) (rep : List Char) (a b : List Char) :
    replaceChar c rep (a ++ b) = replaceChar c rep a ++ replaceChar c rep b := by
  induction a with
  | nil => rfl
  | cons d t ih => simp [replaceChar, ih]

/-- The four chained replacements, on character lists. -/
def escapeHtmlChars (l : List Char) : List Char :=
  replaceChar '>' "&gt;".data
    (replaceChar '<' "&lt;".data
      (replaceChar '"' "&quot;".data
        (replaceChar '&' "&amp;".data l)))

theorem escapeHtmlChars_append (a b : List Char) :
    escapeHtmlChars (a ++ b) = escapeHtmlChars a ++ escapeHtmlChars b := by
  simp [escapeHtmlChars, replaceChar_append]

theorem escapeHtmlChars_single (d : Char) : escapeHtmlChars [d] = htmlEntity d := by
  by_cases h1 : d = '&'
  · subst h1; decide
  · by_cases h2 : d = '"'
    · subst h2; decide
    · by_cases h3 : d = '<'
      · subst h3; decide
      · by_cases h4 : d = '>'
        · subst h4; decide
        · rw [htmlEntity]
          simp only [h1, h2, h3, h4, if_false]
          simp [escapeHtmlChars, replaceChar, h1, h2, h3, h4]

theorem escapeHtmlChars_eq_entityMap (l : List Char) :
    escapeHtmlChars l = (l.map htmlEntity).flatten := by
  induction l with
  | nil => rfl
  | cons d t ih =>
    have : (d :: t) = [d] ++ t := rfl
    rw [this, escapeHtmlChars_append, escapeHtmlChars_single, ih]
    simp

theorem htmlEntity_no_markup (c : Char) :
    '<' ∉ htmlEntity c ∧ '>' ∉ htmlEntity c ∧ '"' ∉ htmlEntity c := by
  rw [htmlEntity]
  by_cases h1 : c = '&'
  · simp [h1]
  · by_cases h2 : c = '"'
    · simp [h1, h2]
    · by_cases h3 : c = '<'
      · simp [h1, h2, h3]
      · by_cases h4 : c = '>'
        · simp [h1, h2, h3, h4]
        · simp only [h1, h2, h3, h4, if_false]
          refine ⟨?_, ?_, ?_⟩
          · simp only [List.mem_singleton]
            exact fun hc => h3 hc.symm
          · simp only [List.mem_singleton]
            exact fun hc => h4 hc.symm
          · simp only [List.mem_singleton]
            exact fun hc => h2 hc.symm

/-- C9: every card message is passed through `escapeHtml` before being
inserted into the front face's HTML; `escapeHtml` replaces every
occurrence of the characters amp, quot, lt and gt with their HTML
entities (it equals the character-wise entity map), so the escaped text
contains no raw markup characters. -/
theorem C9_escapeHtml_escapes_every_occurrence :
    (∀ s : String, escapeHtml s = ⟨(s.data.map htmlEntity).flatten⟩) ∧
    (∀ cardData : CardSpec,
       (frontFace cardData).content
         = "<div class=\"card-text\">" ++ escapeHtml cardData.message ++ "</div>") ∧
    (∀ (s : String) (c : Char), c ∈ (escapeHtml s).data → c ≠ '<' ∧ c ≠ '>' ∧ c ≠ '"') := by
  refine ⟨?_, ?_, ?_⟩
  · intro s
    rw [escapeHtml]
    rw [show ∀ l : List Char, replaceChar '>' "&gt;".data
      (replaceChar '<' "&lt;".data
        (replaceChar '"' "&quot;".data
          (replaceChar '&' "&amp;".data l))) = escapeHtmlChars l from fun _ => rfl]
    rw [escapeHtmlChars_eq_entityMap]
  · intro cardData
    rfl
  · intro s c hc
    rw [escapeHtml] at hc
    have hmem : c ∈ escapeHtmlChars s.data := hc
    rw [escapeHtmlChars_eq_entityMap] at hmem
    rw [List.mem_flatten] at hmem
    obtain ⟨part, hpart, hcp⟩ := hmem
    rw [List.mem_map] at hpart
    obtain ⟨d, _, hd⟩ := hpart
    subst hd
    obtain ⟨n1, n2, n3⟩ := htmlEntity_no_markup d
    exact ⟨fun h => n1 (h ▸ hcp), fun h => n2 (h ▸ hcp), fun h => n3 (h ▸ hcp)⟩

/-- C9 witness: a concrete membership instance of the no-raw-markup
conjunct, at message text containing a lt character. -/
theorem C9_escapeHtml_witness :
    ('&' ∈ (escapeHtml "a<b").data → '&' ≠ '<' ∧ '&' ≠ '>' ∧ '&' ≠ '"')
      ∧ '&' ∈ (escapeHtml "a<b").data :=
  ⟨C9_escapeHtml_escapes_every_occurrence.2.2 "a<b" '&', by decide⟩

/-- C7: for every configuration with non-empty `gameType` and a cards
list, `startGame` appends a title and a wrapper whose children are exactly
one card element per entry of `config.cards`, in input order, each
carrying the entry's id (as `data-id`) and escaped message. -/
theorem C7_startGame_renders_cards_in_order (config : GameConfig) (container : Elem)
    (_hgt : config.gameType ≠ "") :
    ∃ title wrapper : Elem,
      (startGame config container).children = container.children ++ [title, wrapper] ∧
      wrapper.className = "cards-wrapper" ∧
      wrapper.children.length = config.cards.length ∧
      ∀ i : Nat, i < config.cards.length →
        ∃ entry card, config.cards[i]? = some entry ∧ wrapper.children[i]? = some card ∧
          card.attrs = [("data-id", intStr entry.id)] ∧
          cardFrontHtml card
            = some ("<div class=\"card-text\">" ++ escapeHtml entry.message ++ "</div>") := by
  refine ⟨titleElem config, cardsWrapper config, rfl, rfl,
    by simp [cardsWrapper, Elem.children], ?_⟩
  intro i hi
  refine ⟨config.cards[i], mkCardElem config.cards[i], ?_, ?_, rfl, rfl⟩
  · exact List.getElem?_eq_getElem hi
  · show (config.cards.map mkCardElem)[i]? = _
    rw [List.getElem?_map, List.getElem?_eq_getElem hi]
    rfl

/-- A one-card configuration, the spec's section 8 scenario. -/
def exampleConfig : GameConfig :=
  { gameType := "card-flip", theme := none, title := none,
    cards := [{ id := 1, frontImage := "a.png", message := "Hi" }] }

/-- An empty `game-container` element. -/
def exampleContainer : Elem := .mk "div" "" [("id", "game-container")] [] "" []

/-- C7 witness: the rendering property instantiated at the one-card
scenario configuration. -/
theorem C7_startGame_witness :
    exampleConfig.gameType ≠ "" ∧
    (∃ title wrapper : Elem,
      (startGame exampleConfig exampleContainer).children
          = exampleContainer.children ++ [title, wrapper] ∧
      wrapper.className = "cards-wrapper" ∧
      wrapper.children.length = exampleConfig.cards.length ∧
      ∀ i : Nat, i < exampleConfig.cards.length →
        ∃ entry card, exampleConfig.cards[i]? = some entry ∧
          wrapper.children[i]? = some card ∧
          card.attrs = [("data-id", intStr entry.id)] ∧
          cardFrontHtml card
            = some ("<div class=\"card-text\">" ++ escapeHtml entry.message ++ "</div>")) :=
  ⟨by decide, C7_startGame_renders_cards_in_order exampleConfig exampleContainer (by decide)⟩

/-! ## The loader pipeline (the enhanced loader.js in main.js)

`ConfigManager`, `ThemeManager`, `GameManager`, `UIManager` and the
`GameLoader` orchestrator.  The browser is an explicit `Env`; page writes
are a `Doc`; the observable actions of a run are a `List Event`. -/

/-- A JavaScript error value: the class name (`Error`, `ConfigError`,
`GameError`), the message, and the `type` field of the custom error
classes (`none` models reading `.type` of a plain `Error`: `undefined`). -/
structure JsError where
  name : String
  message : String
  etype : Option String
deriving DecidableEq, Repr

/-- `new Error(message)`. -/
def plainError (message : String) : JsError := ⟨"Error", message, none⟩

/-- `new ConfigError(message, type)`: the constructor defaults `type` to
`'CONFIG_ERROR'` when the argument is `undefined`. -/
def mkConfigError (message : String) (t : Option String) : JsError :=
  ⟨"ConfigError", message, some (t.getD "CONFIG_ERROR")⟩

/-- The response a `fetch` settles with: `ok`, `status`, `statusText`, and
the result of `response.json()` (an error message when the body is not
valid JSON). -/
structure FetchResponse where
  ok : Bool
  status : Nat
  statusText : String
  jsonResult : Except String Json

/-- A dynamically imported game module: whether `module.startGame` is a
function, and the effect of calling it (an error message when it throws). -/
structure JsModule where
  hasStartGame : Bool
  run : Json → Except String Unit

/-- The browser environment of one loader run: the two query parameters,
the network, the module resolver (an error message when resolution
rejects) and the image loader outcomes. -/
structure Env where
  configUrl : Option String
  configName : Option String
  fetch : String → FetchResponse
  importModule : String → Except String JsModule
  imageLoadOk : String → Bool

/-- Observable actions of a run. -/
inductive Event where
  | fetch (url : String)
  | importMod (path : String)
  | imgRequest (src : String)
  | start
  | log (msg : String)
  | warn (msg : String)
  | errorLog (msg : String)
deriving DecidableEq, Repr

/-- What the `game-container` element shows. -/
inductive ContainerView where
  | initial
  | loading (msg : String)
  | errorView (userMessage details : String)
  | cleared
  | running (gameType : String)
deriving DecidableEq, Repr

/-- The page state the loader writes: the body's background styles, the
`--card-back` custom property, and the container contents. -/
structure Doc where
  backgroundImage : Option String
  backgroundSize : Option String
  backgroundPosition : Option String
  backgroundRepeatStyle : Option String
  cardBack : Option String
  container : ContainerView
deriving DecidableEq, Repr

/-- The page before the loader runs. -/
def initDoc : Doc := ⟨none, none, none, none, none, .initial⟩

/-- Whether `needle` occurs as a contiguous sublist of `hay`. -/
def hasSubList : List Char → List Char → Bool
  | [], needle => needle.isEmpty
  | c :: t, needle => needle.isPrefixOf (c :: t) || hasSubList t needle

/-- `String.prototype.includes`. -/
def strIncludes (s sub : String) : Bool := hasSubList s.data sub.data

/-- `ConfigManager.fetchFromUrl(url)`: fetch, throw `HTTP <status>:
<statusText>` on a non-ok response, else `response.json()`. -/
def fetchFromUrl (env : Env) (url : String) : Except JsError Json × List Event :=
  let r := env.fetch url
  if !r.ok then
    (.error (plainError ("HTTP " ++ toString r.status ++ ": " ++ r.statusText)), [.fetch url])
  else
    match r.jsonResult with
    | .ok j => (.ok j, [.fetch url])
    | .error m => (.error (plainError m), [.fetch url])

/-- `ConfigManager.fetchFromName(configName)`: fetches
`config/<configName>.json`; a 404 throws the dedicated not-found
message. -/
def fetchFromName (env : Env) (configName : String) : Except JsError Json × List Event :=
  let url := "config/" ++ configName ++ ".json"
  let r := env.fetch url
  if !r.ok then
    if r.status = 404 then
      (.error (plainError ("Config file '" ++ configName ++ ".json' not found")), [.fetch url])
    else
      (.error (plainError ("HTTP " ++ toString r.status ++ ": " ++ r.statusText)), [.fetch url])
  else
    match r.jsonResult with
    | .ok j => (.ok j, [.fetch url])
    | .error m => (.error (plainError m), [.fetch url])

/-- `ConfigManager.fetchConfigFromUrlOrName()`: reads `configUrl` and
`configName` (`|| 'card-flip'`) from the query string; a truthy
`configUrl` wins; any failure is wrapped in a `ConfigError` whose message
is prefixed `Failed to load configuration:` and whose type is the inner
error's `type` (so `CONFIG_ERROR` when the inner error is plain). The
named-config identifier falls back to `'card-flip'` when the parameter is
absent or empty (`urlParams.get('configName') || 'card-flip'`): -/
def resolvedConfigName (env : Env) : String :=
  match env.configName with
  | some s => if s = "" then "card-flip" else s
  | none => "card-flip"

def fetchConfigFromUrlOrName (env : Env) : Except JsError Json × List Event :=
  let configName := resolvedConfigName env
  let out := match env.configUrl with
    | some u => if u = "" then fetchFromName env configName else fetchFromUrl env u
    | none => fetchFromName env configName
  match out with
  | (.ok j, evs) => (.ok j, evs)
  | (.error e, evs) =>
      (.error (mkConfigError ("Failed to load configuration: " ++ e.message) e.etype), evs)

/-- `ConfigManager.validateConfig(config)`: collects the required fields
whose values are missing or falsy and throws when any is; otherwise
returns `true` (a pure check, the config is never modified). -/
def validateConfig (config : Json) : Except JsError Bool :=
  let required := ["gameType"]
  let missing := required.filter (fun field => !(jsTruthyOpt (jGet config field)))
  if missing.length > 0 then
    .error (plainError ("Missing required config fields: " ++ String.intercalate ", " missing))
  else
    .ok true

mutual

/-- JavaScript template-literal coercion of a JSON value to a string
(arrays join their elements with commas; objects print the generic
object tag). -/
def jsTemplateStr : Json → String
  | .null => "null"
  | .bool true => "true"
  | .bool false => "false"
  | .num i => intStr i
  | .str s => s
  | .arr xs => jsTemplateList xs
  | .obj _ => "[object Object]"

/-- Comma-joined coercion of an array's elements. -/
def jsTemplateList : List Json → String
  | [] => ""
  | [v] => jsTemplateStr v
  | v :: vs => jsTemplateStr v ++ "," ++ jsTemplateList vs

end

/-- Template coercion of a possibly-`undefined` value. -/
def jsTemplateOpt : Option Json → String
  | none => "undefined"
  | some v => jsTemplateStr v

/-- `ThemeManager.setBackground(themeName)`: four body background
styles. -/
def setBackground (themeName : String) (d : Doc) : Doc :=
  { d with
    backgroundImage := some ("url('assets/themes/" ++ themeName ++ "/bg.png')"),
    backgroundSize := some "cover",
    backgroundPosition := some "center",
    backgroundRepeatStyle := some "no-repeat" }

/-- `ThemeManager.setCardBack(themeName)`: the `--card-back` custom
property. -/
def setCardBack (themeName : String) (d : Doc) : Doc :=
  { d with cardBack := some ("url('assets/themes/" ++ themeName ++ "/card-back.png')") }

/-- The settled state of a promise. -/
inductive PromiseResult (α : Type) where
  | resolved (a : α)
  | rejected (e : String)

/-- The handler installed as both `img.onload` and `img.onerror`:
`() => resolve()`. -/
def preloadHandler : Unit → PromiseResult Unit := fun _ => .resolved ()

/-- The preload promise of one image: whichever of load and error fires,
the one installed handler resolves. -/
def imagePreload (env : Env) (src : String) : PromiseResult Unit :=
  if env.imageLoadOk src then preloadHandler () else preloadHandler ()

/-- `Promise.all`: rejected as soon as one input is rejected. -/
def promiseAll : List (PromiseResult Unit) → PromiseResult (List Unit)
  | [] => .resolved []
  | p :: ps =>
    match p with
    | .rejected e => .rejected e
    | .resolved a =>
      match promiseAll ps with
      | .rejected e => .rejected e
      | .resolved rest => .resolved (a :: rest)

/-- `ThemeManager.preloadThemeAssets(themeName)`: requests the two theme
images, joins the preload promises with `Promise.all`, logs on success
and only warns in the `catch`: the operation itself always settles
successfully. -/
def preloadThemeAssets (env : Env) (themeName : String) : Except String Unit × List Event :=
  let assets := ["assets/themes/" ++ themeName ++ "/bg.png",
                 "assets/themes/" ++ themeName ++ "/card-back.png"]
  let requests := assets.map Event.imgRequest
  match promiseAll (assets.map (imagePreload env)) with
  | .resolved _ =>
      (.ok (), requests ++ [.log ("Theme '" ++ themeName ++ "' assets preloaded")])
  | .rejected e =>
      (.ok (), requests ++ [.warn ("Some theme assets failed to preload: " ++ e)])

/-- `ThemeManager.applyTheme(themeName)`: warn and return on a falsy
theme name; otherwise set the background, set the card back and preload
the two images. -/
def applyTheme (themeName : Option Json) (env : Env) (d : Doc) : Doc × List Event :=
  if !(jsTruthyOpt themeName) then
    (d, [.warn "No theme specified, using default styling"])
  else
    let t := jsTemplateOpt themeName
    let d2 := setCardBack t (setBackground t d)
    let out := preloadThemeAssets env t
    (d2, out.2)

/-- The `catch` of `GameManager.loadGameModule`: an error whose message
contains the resolution-failure marker becomes the not-found error,
everything else is rethrown unchanged. -/
def moduleCatch (gameType : String) (e : JsError) : JsError :=
  if strIncludes e.message "Failed to resolve module" then
    plainError ("Game module '" ++ gameType ++ ".js' not found")
  else e

/-- `GameManager.loadGameModule(gameType)`: dynamic import of
`./games/<gameType>.js`, then the `startGame` entry-point check; both
failure paths go through the same `catch`. -/
def loadGameModule (env : Env) (gameType : String) : Except JsError JsModule × List Event :=
  let modulePath := "./games/" ++ gameType ++ ".js"
  match env.importModule modulePath with
  | .error emsg => (.error (moduleCatch gameType (plainError emsg)), [.importMod modulePath])
  | .ok m =>
    if m.hasStartGame then (.ok m, [.importMod modulePath])
    else
      (.error (moduleCatch gameType
         (plainError ("Game module '" ++ gameType ++ "' missing startGame function"))),
       [.importMod modulePath])

/-- `GameManager.initializeGame(module, config, container)`: clears the
container, runs the module's `startGame`; a throw is wrapped as a
failed-to-initialize error. -/
def initializeGame (m : JsModule) (config : Json) (d : Doc) :
    Except JsError Unit × Doc × List Event :=
  let d1 : Doc := { d with container := .cleared }
  match m.run config with
  | .error msg =>
      (.error (plainError ("Failed to initialize game: " ++ msg)), d1, [.start])
  | .ok _ =>
      (.ok (), { d1 with container := .running (jsTemplateOpt (jGet config "gameType")) },
       [.start, .log ("Game '" ++ jsTemplateOpt (jGet config "gameType")
          ++ "' initialized successfully")])

/-- The user-facing message categories of `GameLoader.initialize`'s catch
block, checked in order: `ConfigError` instances first, then messages
containing `not found`, then `network`, then the generic text. -/
def classifyError (e : JsError) : String :=
  if e.name = "ConfigError" then "Game configuration error. Please check the game settings."
  else if strIncludes e.message "not found" then
    "Game files are missing. Please check the installation."
  else if strIncludes e.message "network" then
    "Network error. Please check your connection and try again."
  else "Failed to load game. Please try again."

/-- `UIManager.showError(message, details)` as reflected on the
container. -/
def showErrorDoc (d : Doc) (e : JsError) : Doc :=
  { d with container := .errorView (classifyError e) e.message }

/-- `GameLoader.initialize()`: the orchestrated pipeline — fetch and
validate the configuration, apply the theme, load the game module,
initialize the game; any failure falls to the catch block, which logs and
renders the classified error. -/
def initializeLoader (env : Env) : Doc × List Event :=
  let d0 : Doc := { initDoc with container := .loading "Loading configuration..." }
  match fetchConfigFromUrlOrName env with
  | (.error e, evs) => (showErrorDoc d0 e, evs ++ [.errorLog e.message])
  | (.ok config, evs) =>
    match validateConfig config with
    | .error e => (showErrorDoc d0 e, evs ++ [.errorLog e.message])
    | .ok _ =>
      let d1 : Doc := { d0 with container := .loading "Applying theme..." }
      let themed := applyTheme (jGet config "theme") env d1
      let d3 : Doc := { themed.1 with container := .loading "Loading game module..." }
      match loadGameModule env (jsTemplateOpt (jGet config "gameType")) with
      | (.error e, evs3) =>
          (showErrorDoc d3 e, evs ++ themed.2 ++ evs3 ++ [.errorLog e.message])
      | (.ok m, evs3) =>
        let d4 : Doc := { d3 with container := .loading "Initializing game..." }
        match initializeGame m config d4 with
        | (.error e, d5, evs4) =>
            (showErrorDoc d5 e, evs ++ themed.2 ++ evs3 ++ evs4 ++ [.errorLog e.message])
        | (.ok _, d5, evs4) => (d5, evs ++ themed.2 ++ evs3 ++ evs4)

/-! ## Theorems about the loader pipeline -/

theorem preloadThemeAssets_spec (env : Env) (themeName : String) :
    preloadThemeAssets env themeName =
      (.ok (), [.imgRequest ("assets/themes/" ++ themeName ++ "/bg.png"),
                .imgRequest ("assets/themes/" ++ themeName ++ "/card-back.png"),
                .log ("Theme '" ++ themeName ++ "' assets preloaded")]) := by
  rw [preloadThemeAssets]
  cases h1 : env.imageLoadOk ("assets/themes/" ++ themeName ++ "/bg.png") <;>
    cases h2 : env.imageLoadOk ("assets/themes/" ++ themeName ++ "/card-back.png") <;>
      simp [imagePreload, h1, h2, preloadHandler, promiseAll]

/-- C6: for every theme name and every outcome of each of the two image
loads, the preload operation settles successfully: both installed
handlers resolve, `Promise.all` of the two resolved promises resolves,
the success log is emitted and the warn branch of the catch is never
reached. -/
theorem C6_preload_always_settles (env : Env) (themeName : String) :
    (preloadThemeAssets env themeName).1 = .ok () ∧
    (preloadThemeAssets env themeName).2 =
      [.imgRequest ("assets/themes/" ++ themeName ++ "/bg.png"),
       .imgRequest ("assets/themes/" ++ themeName ++ "/card-back.png"),
       .log ("Theme '" ++ themeName ++ "' assets preloaded")] ∧
    (∀ msg, Event.warn msg ∉ (preloadThemeAssets env themeName).2) := by
  rw [preloadThemeAssets_spec]
  refine ⟨rfl, rfl, ?_⟩
  intro msg hmem
  simp at hmem

/-- C8: with an empty (or absent) theme name `applyTheme` is a no-op
apart from the warning — the document is unchanged; with a non-empty
theme name exactly the body background styles and the `--card-back`
property are set, from the two convention paths. -/
theorem C8_applyTheme_frame (env : Env) (d : Doc) :
    (applyTheme (some (.str "")) env d = (d, [.warn "No theme specified, using default styling"])) ∧
    (applyTheme none env d = (d, [.warn "No theme specified, using default styling"])) ∧
    (∀ t : String, t ≠ "" →
      (applyTheme (some (.str t)) env d).1 =
        { d with
          backgroundImage := some ("url('assets/themes/" ++ t ++ "/bg.png')"),
          backgroundSize := some "cover",
          backgroundPosition := some "center",
          backgroundRepeatStyle := some "no-repeat",
          cardBack := some ("url('assets/themes/" ++ t ++ "/card-back.png')") }) := by
  refine ⟨rfl, rfl, ?_⟩
  intro t ht
  rw [applyTheme]
  have : jsTruthyOpt (some (.str t)) = true := by
    simp [jsTruthyOpt, jsTruthy, ht]
  rw [this]
  rfl

/-- A fully healthy environment: no query parameters, every fetch
returns the example configuration, the module resolves with a working
`startGame`, every image loads. -/
def envAllOk : Env :=
  ⟨none, none,
   fun _ => ⟨true, 200, "OK",
     .ok (.obj [("gameType", .str "card-flip"), ("theme", .str "theme1")])⟩,
   fun _ => .ok ⟨true, fun _ => .ok ()⟩,
   fun _ => true⟩

/-- C8 witness: the theme-setting conjunct at the concrete theme
`theme1` on the pristine page. -/
theorem C8_applyTheme_witness :
    "theme1" ≠ "" ∧
    (applyTheme (some (.str "theme1")) envAllOk initDoc).1 =
      { initDoc with
        backgroundImage := some ("url('assets/themes/" ++ "theme1" ++ "/bg.png')"),
        backgroundSize := some "cover",
        backgroundPosition := some "center",
        backgroundRepeatStyle := some "no-repeat",
        cardBack := some ("url('assets/themes/" ++ "theme1" ++ "/card-back.png')") } :=
  ⟨by decide, (C8_applyTheme_frame envAllOk initDoc).2.2 "theme1" (by decide)⟩

theorem fetchFromUrl_events (env : Env) (url : String) :
    (fetchFromUrl env url).2 = [.fetch url] := by
  rw [fetchFromUrl]
  cases h : (env.fetch url).ok
  · simp [h]
  · simp only [h, Bool.not_true, Bool.false_eq_true, if_false]
    cases h2 : (env.fetch url).jsonResult <;> simp

theorem fetchFromName_events (env : Env) (configName : String) :
    (fetchFromName env configName).2 = [.fetch ("config/" ++ configName ++ ".json")] := by
  rw [fetchFromName]
  cases h : (env.fetch ("config/" ++ configName ++ ".json")).ok
  · simp only [h, Bool.not_false, if_true]
    by_cases h3 : (env.fetch ("config/" ++ configName ++ ".json")).status = 404 <;> simp [h3]
  · simp only [h, Bool.not_true, Bool.false_eq_true, if_false]
    cases h2 : (env.fetch ("config/" ++ configName ++ ".json")).jsonResult <;> simp

theorem fetchConfigFromUrlOrName_events (env : Env) :
    (fetchConfigFromUrlOrName env).2 =
      (match env.configUrl with
       | some u => if u = "" then [Event.fetch ("config/" ++ resolvedConfigName env ++ ".json")]
                   else [Event.fetch u]
       | none => [Event.fetch ("config/" ++ resolvedConfigName env ++ ".json")]) := by
  rw [fetchConfigFromUrlOrName]
  cases hu : env.configUrl with
  | none =>
    simp only []
    rcases hfn : fetchFromName env (resolvedConfigName env) with ⟨res, evs⟩
    have he := fetchFromName_events env (resolvedConfigName env)
    rw [hfn] at he
    simp at he
    cases res <;> simp [he]
  | some u =>
    by_cases hue : u = ""
    · subst hue
      simp only [if_pos rfl]
      rcases hfn : fetchFromName env (resolvedConfigName env) with ⟨res, evs⟩
      have he := fetchFromName_events env (resolvedConfigName env)
      rw [hfn] at he
      simp at he
      cases res <;> simp [he]
    · simp only [hue, if_false]
      rcases hfu : fetchFromUrl env u with ⟨res, evs⟩
      have he := fetchFromUrl_events env u
      rw [hfu] at he
      simp at he
      cases res <;> simp [he]

/-- C1 (amended): a non-empty `configUrl` parameter makes the loader fetch
exactly that URL and nothing else (in particular no named-config path);
when both parameters are absent or empty it fetches exactly the default
path `config/card-flip.json`; a non-empty `configName` (with `configUrl`
absent or empty) fetches exactly `config/<configName>.json`. -/
theorem C1_fetch_resolution (env : Env) :
    (∀ u, env.configUrl = some u → u ≠ "" →
      (fetchConfigFromUrlOrName env).2 = [.fetch u]) ∧
    ((env.configUrl = none ∨ env.configUrl = some "") →
      (env.configName = none ∨ env.configName = some "") →
      (fetchConfigFromUrlOrName env).2 = [.fetch "config/card-flip.json"]) ∧
    (∀ n, (env.configUrl = none ∨ env.configUrl = some "") → env.configName = some n →
      n ≠ "" →
      (fetchConfigFromUrlOrName env).2 = [.fetch ("config/" ++ n ++ ".json")]) := by
  refine ⟨?_, ?_, ?_⟩
  · intro u hu hne
    rw [fetchConfigFromUrlOrName_events, hu]
    simp [hne]
  · intro hu hn
    have hname : resolvedConfigName env = "card-flip" := by
      rw [resolvedConfigName]
      rcases hn with h | h <;> simp [h]
    rw [fetchConfigFromUrlOrName_events, hname]
    rcases hu with h | h <;> simp [h]
  · intro n hu hn hne
    have hname : resolvedConfigName env = n := by
      rw [resolvedConfigName, hn]
      simp [hne]
    rw [fetchConfigFromUrlOrName_events, hname]
    rcases hu with h | h <;> simp [h]

/-- An environment whose query string carries `configUrl` with an empty
value (`?configUrl=`): the parameter is present but falsy. -/
def envEmptyConfigUrl : Env := { envAllOk with configUrl := some "" }

/-- C1 counterexample: with the `configUrl` parameter present (empty
value), the loader does not fetch that URL — it constructs and fetches
the named-config default path, contradicting the claim read over every
present `configUrl`. -/
theorem C1_counterexample_empty_configUrl :
    envEmptyConfigUrl.configUrl = some "" ∧
    (fetchConfigFromUrlOrName envEmptyConfigUrl).2 = [.fetch "config/card-flip.json"] ∧
    (fetchConfigFromUrlOrName envEmptyConfigUrl).2 ≠ [.fetch ""] := by
  refine ⟨rfl, rfl, ?_⟩
  decide

/-- C1 witness: the three amended conjuncts at concrete environments. -/
theorem C1_fetch_resolution_witness :
    ((fetchConfigFromUrlOrName { envAllOk with configUrl := some "http://x/cfg.json" }).2
        = [.fetch "http://x/cfg.json"]) ∧
    ((fetchConfigFromUrlOrName envAllOk).2 = [.fetch "config/card-flip.json"]) ∧
    ((fetchConfigFromUrlOrName { envAllOk with configName := some "game-001" }).2
        = [.fetch ("config/" ++ "game-001" ++ ".json")]) :=
  ⟨(C1_fetch_resolution { envAllOk with configUrl := some "http://x/cfg.json" }).1
      "http://x/cfg.json" rfl (by decide),
   (C1_fetch_resolution envAllOk).2.1 (Or.inl rfl) (Or.inl rfl),
   (C1_fetch_resolution { envAllOk with configName := some "game-001" }).2.2
      "game-001" (Or.inl rfl) rfl (by decide)⟩

/-- C4 (amended): `validateConfig` throws exactly when `gameType` is
missing or falsy (in particular when it is present but the empty
string), and returns `true` — leaving the configuration untouched, it is
a pure check — exactly when `gameType` is present and truthy. -/
theorem C4_validateConfig_truthiness (config : Json) :
    (jsTruthyOpt (jGet config "gameType") = true →
      validateConfig config = .ok true) ∧
    (jsTruthyOpt (jGet config "gameType") = false →
      validateConfig config
        = .error (plainError "Missing required config fields: gameType")) := by
  constructor
  · intro h
    rw [validateConfig]
    simp [h]
  · intro h
    rw [validateConfig]
    simp [h]
    rfl

/-- C4 counterexample: a configuration whose `gameType` key is present
(with the empty string as value) still fails validation, so validation
does not throw only when the field is absent. -/
theorem C4_counterexample_present_but_empty :
    (jGet (.obj [("gameType", .str "")]) "gameType").isSome = true ∧
    validateConfig (.obj [("gameType", .str "")])
      = .error (plainError "Missing required config fields: gameType") :=
  ⟨rfl, rfl⟩

/-- C4 witness: both amended directions at concrete configurations. -/
theorem C4_validateConfig_witness :
    validateConfig (.obj [("gameType", .str "card-flip")]) = .ok true ∧
    validateConfig (.obj [("theme", .str "t")])
      = .error (plainError "Missing required config fields: gameType") :=
  ⟨(C4_validateConfig_truthiness (.obj [("gameType", .str "card-flip")])).1 rfl,
   (C4_validateConfig_truthiness (.obj [("theme", .str "t")])).2 rfl⟩

/-- C5 (amended): the pipeline's failures are not instances of the
spec's fine-grained taxonomy classes (which do not exist in the code):
a non-ok network status produces a plain `Error` whose message embeds
the HTTP status, wrapped at the `fetchConfigFromUrlOrName` boundary into
`ConfigError` with type `CONFIG_ERROR`; a JSON-parse failure is likewise
wrapped into `ConfigError`; a failed module resolution produces a plain
`Error` named `Error` with the not-found message; a resolved module
without a `startGame` function produces a plain `Error` with the
missing-entry-point message. -/
theorem C5_error_values (env : Env) :
    (∀ u, env.configUrl = some u → u ≠ "" → (env.fetch u).ok = false →
      (fetchConfigFromUrlOrName env).1
        = .error (mkConfigError
            ("Failed to load configuration: "
              ++ ("HTTP " ++ toString (env.fetch u).status
                    ++ ": " ++ (env.fetch u).statusText)) none)) ∧
    (∀ u m, env.configUrl = some u → u ≠ "" → (env.fetch u).ok = true →
      (env.fetch u).jsonResult = .error m →
      (fetchConfigFromUrlOrName env).1
        = .error (mkConfigError ("Failed to load configuration: " ++ m) none)) ∧
    (∀ gameType emsg, env.importModule ("./games/" ++ gameType ++ ".js") = .error emsg →
      strIncludes emsg "Failed to resolve module" = true →
      (loadGameModule env gameType).1
        = .error (plainError ("Game module '" ++ gameType ++ ".js' not found"))) ∧
    (∀ gameType m, env.importModule ("./games/" ++ gameType ++ ".js") = .ok m →
      m.hasStartGame = false →
      strIncludes ("Game module '" ++ gameType ++ "' missing startGame function")
          "Failed to resolve module" = false →
      (loadGameModule env gameType).1
        = .error (plainError ("Game module '" ++ gameType ++ "' missing startGame function"))) := by
  refine ⟨?_, ?_, ?_, ?_⟩
  · intro u hu hne hok
    rw [fetchConfigFromUrlOrName]
    rw [hu]
    simp only [hne, if_false]
    rw [fetchFromUrl]
    simp [hok, plainError, mkConfigError, Option.getD]
  · intro u m hu hne hok hjson
    rw [fetchConfigFromUrlOrName]
    rw [hu]
    simp only [hne, if_false]
    rw [fetchFromUrl]
    simp [hok, hjson, plainError, mkConfigError, Option.getD]
  · intro gameType emsg himp hmarker
    rw [loadGameModule]
    rw [himp]
    simp [moduleCatch, plainError, hmarker]
  · intro gameType m himp hstart hmarker
    rw [loadGameModule]
    rw [himp]
    simp only [hstart, Bool.false_eq_true, if_false]
    simp [moduleCatch, plainError, hmarker]

/-- An environment whose dynamic import rejects with the
resolution-failure message the catch block looks for. -/
def envModuleMissing : Env :=
  { envAllOk with importModule := fun p => .error ("Failed to resolve module " ++ p) }

/-- C5 counterexample: a failed module resolution produces an error whose
class name is `Error`, not `GameModuleNotFoundError` — the taxonomy class
the claim requires does not exist in the code. -/
theorem C5_counterexample_module_not_found :
    (loadGameModule envModuleMissing "snake").1
      = .error (plainError "Game module 'snake.js' not found") ∧
    (plainError "Game module 'snake.js' not found").name = "Error" ∧
    ("Error" : String) ≠ "GameModuleNotFoundError" := by
  refine ⟨?_, rfl, by decide⟩
  rw [loadGameModule]
  simp [envModuleMissing, envAllOk, moduleCatch, plainError]
  decide

/-- An environment whose config fetch returns a server error status. -/
def envHttp500 : Env :=
  { envAllOk with
    configUrl := some "http://x/cfg.json",
    fetch := fun _ => ⟨false, 500, "Internal Server Error", .error "no body"⟩ }

/-- C5 witness: the fetch-error and missing-entry-point conjuncts at
concrete environments. -/
theorem C5_error_values_witness :
    ((fetchConfigFromUrlOrName envHttp500).1
      = .error (mkConfigError
          ("Failed to load configuration: "
            ++ ("HTTP " ++ toString (500 : Nat) ++ ": " ++ "Internal Server Error")) none)) ∧
    ((loadGameModule { envAllOk with importModule := fun _ => .ok ⟨false, fun _ => .ok ()⟩ }
        "card-flip").1
      = .error (plainError ("Game module '" ++ "card-flip" ++ "' missing startGame function"))) :=
  ⟨(C5_error_values envHttp500).1 "http://x/cfg.json" rfl (by decide) rfl,
   (C5_error_values { envAllOk with importModule := fun _ => .ok ⟨false, fun _ => .ok ()⟩ }).2.2.2
      "card-flip" ⟨false, fun _ => .ok ()⟩ rfl rfl (by decide)⟩

theorem validateConfig_falsy (config : Json)
    (h : jsTruthyOpt (jGet config "gameType") = false) :
    validateConfig config = .error (plainError "Missing required config fields: gameType") := by
  rw [validateConfig]
  simp [h]
  rfl

theorem validateConfig_truthy (config : Json)
    (h : jsTruthyOpt (jGet config "gameType") = true) :
    validateConfig config = .ok true := by
  rw [validateConfig]
  simp [h]

theorem applyTheme_events_shape (t : Option Json) (env : Env) (d : Doc) :
    Event.start ∉ (applyTheme t env d).2 ∧
    (∀ p, Event.importMod p ∉ (applyTheme t env d).2) := by
  rw [applyTheme]
  by_cases h : jsTruthyOpt t = true
  · simp only [h, Bool.not_true, Bool.false_eq_true, if_false]
    simp [preloadThemeAssets_spec]
  · simp only [Bool.not_eq_true] at h
    simp [h]

theorem fetchConfig_snd_fetchOnly (env : Env) :
    ∃ u, (fetchConfigFromUrlOrName env).2 = [Event.fetch u] := by
  rw [fetchConfigFromUrlOrName_events]
  cases h : env.configUrl with
  | none => exact ⟨_, rfl⟩
  | some u =>
    by_cases hu : u = ""
    · subst hu
      simp only [if_pos rfl]
      exact ⟨_, rfl⟩
    · simp only [hu, if_false]
      exact ⟨_, rfl⟩

theorem loadGameModule_events (env : Env) (gameType : String) :
    (loadGameModule env gameType).2 = [.importMod ("./games/" ++ gameType ++ ".js")] := by
  rw [loadGameModule]
  cases h : env.importModule ("./games/" ++ gameType ++ ".js") with
  | error emsg => simp
  | ok m =>
    by_cases h2 : m.hasStartGame <;> simp [h2]

theorem runShape_validationError (env : Env) (config : Json) (evs : List Event)
    (hfetch : fetchConfigFromUrlOrName env = (.ok config, evs))
    (hmiss : jGet config "gameType" = none) :
    initializeLoader env =
      (showErrorDoc { initDoc with container := .loading "Loading configuration..." }
         (plainError "Missing required config fields: gameType"),
       evs ++ [.errorLog "Missing required config fields: gameType"]) := by
  have hval := validateConfig_falsy config (by simp [hmiss, jsTruthyOpt])
  unfold initializeLoader
  rw [hfetch]
  simp only []
  rw [hval]
  rfl

theorem runShape_fetchError (env : Env) (e : JsError) (evs : List Event)
    (hfetch : fetchConfigFromUrlOrName env = (.error e, evs)) :
    initializeLoader env =
      (showErrorDoc { initDoc with container := .loading "Loading configuration..." } e,
       evs ++ [.errorLog e.message]) := by
  unfold initializeLoader
  rw [hfetch]

theorem runShape_moduleError (env : Env) (config : Json) (evs : List Event)
    (e : JsError) (evs3 : List Event)
    (hfetch : fetchConfigFromUrlOrName env = (.ok config, evs))
    (hval : validateConfig config = .ok true)
    (hmod : loadGameModule env (jsTemplateOpt (jGet config "gameType")) = (.error e, evs3)) :
    ∃ d5 : Doc, initializeLoader env =
      (d5,
       evs ++ (applyTheme (jGet config "theme") env
          { initDoc with container := .loading "Applying theme..." }).2
          ++ evs3 ++ [.errorLog e.message]) ∧
      d5.container = .errorView (classifyError e) e.message := by
  unfold initializeLoader
  rw [hfetch]
  simp only []
  rw [hval]
  simp only []
  rw [hmod]
  exact ⟨_, rfl, rfl⟩

/-- C2: a configuration lacking `gameType` fails validation, and the run
performs no theme side effect (all background styles and the card-back
property stay unset), never attempts module resolution or game
initialization, and ends with the error view rendered; more generally a
failure of the configuration fetch, or of module loading, stops the
pipeline before any later step and ends in the error view. -/
theorem C2_failure_stops_pipeline :
    (∀ (env : Env) (config : Json) (evs : List Event),
      fetchConfigFromUrlOrName env = (.ok config, evs) →
      jGet config "gameType" = none →
      validateConfig config
          = .error (plainError "Missing required config fields: gameType") ∧
      (initializeLoader env).1.backgroundImage = none ∧
      (initializeLoader env).1.backgroundSize = none ∧
      (initializeLoader env).1.backgroundPosition = none ∧
      (initializeLoader env).1.backgroundRepeatStyle = none ∧
      (initializeLoader env).1.cardBack = none ∧
      (∃ m d, (initializeLoader env).1.container = .errorView m d) ∧
      (∀ p, Event.importMod p ∉ (initializeLoader env).2) ∧
      Event.start ∉ (initializeLoader env).2) ∧
    (∀ (env : Env) (e : JsError) (evs : List Event),
      fetchConfigFromUrlOrName env = (.error e, evs) →
      (initializeLoader env).1.backgroundImage = none ∧
      (initializeLoader env).1.cardBack = none ∧
      (∃ m d, (initializeLoader env).1.container = .errorView m d) ∧
      (∀ p, Event.importMod p ∉ (initializeLoader env).2) ∧
      Event.start ∉ (initializeLoader env).2) ∧
    (∀ (env : Env) (config : Json) (evs : List Event) (e : JsError) (evs3 : List Event),
      fetchConfigFromUrlOrName env = (.ok config, evs) →
      validateConfig config = .ok true →
      loadGameModule env (jsTemplateOpt (jGet config "gameType")) = (.error e, evs3) →
      (∃ m d, (initializeLoader env).1.container = .errorView m d) ∧
      Event.start ∉ (initializeLoader env).2) := by
  refine ⟨?_, ?_, ?_⟩
  · intro env config evs hfetch hmiss
    have hval := validateConfig_falsy config (by simp [hmiss, jsTruthyOpt])
    have hrun := runShape_validationError env config evs hfetch hmiss
    obtain ⟨u, hu⟩ : ∃ u, evs = [Event.fetch u] := by
      obtain ⟨u, hu⟩ := fetchConfig_snd_fetchOnly env
      rw [hfetch] at hu
      exact ⟨u, by simpa using hu⟩
    rw [hrun]
    subst hu
    refine ⟨hval, rfl, rfl, rfl, rfl, rfl, ⟨_, _, rfl⟩, ?_, ?_⟩
    · intro p hmem
      simp at hmem
    · intro hmem
      simp at hmem
  · intro env e evs hfetch
    have hrun := runShape_fetchError env e evs hfetch
    obtain ⟨u, hu⟩ : ∃ u, evs = [Event.fetch u] := by
      obtain ⟨u, hu⟩ := fetchConfig_snd_fetchOnly env
      rw [hfetch] at hu
      exact ⟨u, by simpa using hu⟩
    rw [hrun]
    subst hu
    refine ⟨rfl, rfl, ⟨_, _, rfl⟩, ?_, ?_⟩
    · intro p hmem
      simp at hmem
    · intro hmem
      simp at hmem
  · intro env config evs e evs3 hfetch hval hmod
    obtain ⟨d5, hrun, hcont⟩ := runShape_moduleError env config evs e evs3 hfetch hval hmod
    rw [hrun]
    refine ⟨⟨_, _, hcont⟩, ?_⟩
    intro hmem
    obtain ⟨u, hu⟩ : ∃ u, evs = [Event.fetch u] := by
      obtain ⟨u, hu⟩ := fetchConfig_snd_fetchOnly env
      rw [hfetch] at hu
      exact ⟨u, by simpa using hu⟩
    have hmodev : evs3 = [.importMod ("./games/" ++ jsTemplateOpt (jGet config "gameType")
        ++ ".js")] := by
      have h := loadGameModule_events env (jsTemplateOpt (jGet config "gameType"))
      rw [hmod] at h
      simpa using h
    have hth := applyTheme_events_shape (jGet config "theme") env
      { initDoc with container := .loading "Applying theme..." }
    subst hu
    subst hmodev
    simp only [List.mem_append, List.mem_singleton] at hmem
    rcases hmem with ((hmem | hmem) | hmem) | hmem
    · simp at hmem
    · exact hth.1 hmem
    · simp at hmem
    · simp at hmem

/-- An environment whose configuration fetch succeeds but yields a
configuration without `gameType`. -/
def envNoGameType : Env :=
  { envAllOk with fetch := fun _ => ⟨true, 200, "OK", .ok (.obj [("theme", .str "t")])⟩ }

/-- C2 witness: the missing-`gameType` conjunct at a concrete
environment. -/
theorem C2_failure_stops_pipeline_witness :
    validateConfig (.obj [("theme", .str "t")])
        = .error (plainError "Missing required config fields: gameType") ∧
    (initializeLoader envNoGameType).1.backgroundImage = none ∧
    (initializeLoader envNoGameType).1.backgroundSize = none ∧
    (initializeLoader envNoGameType).1.backgroundPosition = none ∧
    (initializeLoader envNoGameType).1.backgroundRepeatStyle = none ∧
    (initializeLoader envNoGameType).1.cardBack = none ∧
    (∃ m d, (initializeLoader envNoGameType).1.container = .errorView m d) ∧
    (∀ p, Event.importMod p ∉ (initializeLoader envNoGameType).2) ∧
    Event.start ∉ (initializeLoader envNoGameType).2 :=
  C2_failure_stops_pipeline.1 envNoGameType (.obj [("theme", .str "t")])
    [.fetch "config/card-flip.json"] rfl rfl

/-- C3 (amended): a 404 on the named-config fetch is wrapped in a
`ConfigError`, and the catch block classifies by error class before
message content, so the rendered user message is the configuration-error
category text — not the missing-files text (that branch is shadowed even
though the wrapped message contains `not found`). -/
theorem C3_config_404_renders_config_error (env : Env)
    (hu : env.configUrl = none ∨ env.configUrl = some "")
    (hok : (env.fetch ("config/" ++ resolvedConfigName env ++ ".json")).ok = false)
    (h404 : (env.fetch ("config/" ++ resolvedConfigName env ++ ".json")).status = 404) :
    (initializeLoader env).1.container
      = .errorView "Game configuration error. Please check the game settings."
          ("Failed to load configuration: "
            ++ ("Config file '" ++ resolvedConfigName env ++ ".json' not found")) := by
  have hfn : fetchFromName env (resolvedConfigName env)
      = (.error (plainError ("Config file '" ++ resolvedConfigName env ++ ".json' not found")),
         [.fetch ("config/" ++ resolvedConfigName env ++ ".json")]) := by
    rw [fetchFromName]
    simp [hok, h404]
  have hfetch : fetchConfigFromUrlOrName env
      = (.error (mkConfigError
          ("Failed to load configuration: "
            ++ ("Config file '" ++ resolvedConfigName env ++ ".json' not found")) none),
         [.fetch ("config/" ++ resolvedConfigName env ++ ".json")]) := by
    rw [fetchConfigFromUrlOrName]
    rcases hu with h | h
    · rw [h]
      simp only []
      rw [hfn]
      rfl
    · rw [h]
      simp only [reduceIte]
      rw [hfn]
      rfl
  have hrun := runShape_fetchError env _ _ hfetch
  rw [hrun]
  rfl

/-- An environment in which every fetch comes back 404. -/
def env404 : Env :=
  { envAllOk with fetch := fun _ => ⟨false, 404, "Not Found", .error "Unexpected token"⟩ }

/-- C3 counterexample: with a 404 on the configuration fetch the rendered
user message is the configuration-error category text, which differs from
the missing-files category text the claim requires. -/
theorem C3_counterexample_404_message :
    (initializeLoader env404).1.container
      = .errorView "Game configuration error. Please check the game settings."
          "Failed to load configuration: Config file 'card-flip.json' not found" ∧
    "Game configuration error. Please check the game settings."
      ≠ "Game files are missing. Please check the installation." := by
  refine ⟨by decide, by decide⟩

/-- C3 witness: the amended statement at the concrete 404 environment. -/
theorem C3_config_404_witness :
    (initializeLoader env404).1.container
      = .errorView "Game configuration error. Please check the game settings."
          ("Failed to load configuration: "
            ++ ("Config file '" ++ resolvedConfigName env404 ++ ".json' not found")) :=
  C3_config_404_renders_config_error env404 (Or.inl rfl) rfl rfl

end GameLoader3C
